import Mathlib

/-!
Shallow embedding of the mini-app backend (`src/server.js` and
`src/unnamed/part_000`): the Telegram `initData` signature verifier, the
ownership resolver `getProductOwnersBySellerUsername` (both copies), the
`/api/me/orders` order matcher, the `/api/me/sales` product loop, and the
`/api/me` handler.

JS strings are modelled as `List Char` (sequences of Unicode scalar values;
the sources only manipulate BMP text, where this coincides with the UTF-16
view JS exposes).  The cryptographic primitives SHA-256 and HMAC-SHA256 are
abstract function parameters: every claim here is about the control flow and
string canonicalisation around them, not about the hash functions themselves.
-/

/-- Converts a Lean string literal into the `List Char` model of a JS string. -/
def jstr (s : String) : List Char := s.data

/-- ASCII fragment of the character map of JS `String.prototype.toLowerCase`
(the sources only compare ASCII handles and hex digests). -/
def jsLowerChar (c : Char) : Char :=
  if c.toNat ≥ 65 ∧ c.toNat ≤ 90 then Char.ofNat (c.toNat + 32) else c

/-- JS `String.prototype.toLowerCase` over the modelled string. -/
def jsLower (l : List Char) : List Char := l.map jsLowerChar

/-- Whitespace recognised by JS `String.prototype.trim` (common fragment). -/
def jsSpace (c : Char) : Bool := c = ' ' || c = '\t' || c = '\n' || c = '\r'

/-- JS `String.prototype.trim`: strips whitespace from both ends. -/
def jsTrim (l : List Char) : List Char :=
  ((l.dropWhile jsSpace).reverse.dropWhile jsSpace).reverse

/-- Decides whether the first list is a leading segment of the second. -/
def prefixTest : List Char → List Char → Bool
  | [], _ => true
  | _ :: _, [] => false
  | a :: as, b :: bs => decide (a = b) && prefixTest as bs

/-- JS `String.prototype.includes`: the needle occurs contiguously in the
haystack (true for the empty needle, as in JS). -/
def inclTest (ndl : List Char) : List Char → Bool
  | [] => prefixTest ndl []
  | c :: rest => prefixTest ndl (c :: rest) || inclTest ndl rest

/-- JS `String.prototype.startsWith`. -/
def jsStartsWith (l search : List Char) : Bool := prefixTest search l

/-- JS default `Array.prototype.sort` string comparison: lexicographic by code
unit, as a boolean less-or-equal. -/
def lexLe : List Char → List Char → Bool
  | [], _ => true
  | _ :: _, [] => false
  | a :: as, b :: bs => if a = b then lexLe as bs else decide (a < b)

/-- Propositional form of `lexLe`, the relation the key sort uses. -/
def lexR (a b : List Char) : Prop := lexLe a b = true

instance : DecidableRel lexR := fun a b => by
  unfold lexR; infer_instance

/-- Parsed query-string entries in insertion order: the `URLSearchParams`
state `verifyTelegram` operates on. -/
abbrev Params := List (List Char × List Char)

/-- `URLSearchParams.get`: first value stored under the key, or null. -/
def getParam (p : Params) (k : List Char) : Option (List Char) :=
  (p.find? (fun e => decide (e.1 = k))).map (fun e => e.2)

/-- `URLSearchParams.delete`: removes every entry stored under the key. -/
def deleteParam (p : Params) (k : List Char) : Params :=
  p.filter (fun e => decide (e.1 ≠ k))

/-- A JS number as far as the verifier observes it: a finite value idealised
as an exact rational (JS rounds the mathematical value of a numeric literal
to the nearest double; no claim here depends on that rounding), or a signed
infinity. `none` at use sites models NaN. -/
inductive JsNum where
  | num (q : ℚ)
  | inf (neg : Bool)
deriving DecidableEq, Repr

/-- Digit value for bases up to 16 (255 for non-digit characters). -/
def digitVal (c : Char) : Nat :=
  if c.isDigit then c.toNat - 48
  else if 'a' ≤ c ∧ c ≤ 'f' then c.toNat - 87
  else if 'A' ≤ c ∧ c ≤ 'F' then c.toNat - 55
  else 255

/-- Value of a non-empty digit string in the given base, `none` otherwise. -/
def digitsValBase (base : Nat) (l : List Char) : Option Nat :=
  if l = [] then none
  else if l.all (fun c => digitVal c < base) then
    some (l.foldl (fun a c => a * base + digitVal c) 0)
  else none

/-- Value of a (possibly empty) decimal digit string. -/
def decDigitsVal (l : List Char) : Nat :=
  l.foldl (fun a c => a * 10 + (c.toNat - 48)) 0

/-- The exact value `m / 10^f * 10^e` of a decimal literal with mantissa
digits worth `m`, `f` of them fractional, and exponent `e`. -/
def decScale (m : Nat) (f : Nat) (e : Int) : ℚ :=
  if 0 ≤ e then mkRat ((m : Int) * (10 : Int) ^ e.toNat) ((10 : Nat) ^ f)
  else mkRat (m : Int) ((10 : Nat) ^ f * (10 : Nat) ^ (-e).toNat)

/-- Exponent part of a decimal literal: nothing, or `e`/`E` with an optional
sign and digits running to the end of the string; otherwise `none`. -/
def parseExpPart : List Char → Option Int
  | [] => some 0
  | c :: rest =>
    if c = 'e' ∨ c = 'E' then
      match rest with
      | '+' :: ds => (digitsValBase 10 ds).map (fun n => (n : Int))
      | '-' :: ds => (digitsValBase 10 ds).map (fun n => -(n : Int))
      | ds => (digitsValBase 10 ds).map (fun n => (n : Int))
    else none

/-- Unsigned decimal literal of JS `Number`: `digits [. digits] [exp]` or
`. digits [exp]`, evaluated exactly. -/
def parseUnsignedDec (l : List Char) : Option ℚ :=
  let intPart := l.takeWhile (fun c => c.isDigit)
  let rest1 := l.dropWhile (fun c => c.isDigit)
  match rest1 with
  | '.' :: rest2 =>
    let fracPart := rest2.takeWhile (fun c => c.isDigit)
    let rest3 := rest2.dropWhile (fun c => c.isDigit)
    if intPart = [] ∧ fracPart = [] then none
    else (parseExpPart rest3).map (fun e =>
      decScale (decDigitsVal (intPart ++ fracPart)) fracPart.length e)
  | rest =>
    if intPart = [] then none
    else (parseExpPart rest).map (fun e => decScale (decDigitsVal intPart) 0 e)

/-- Tail of a signed JS numeric string: `Infinity` or an unsigned decimal
literal, with the sign applied. -/
def parseSigned (neg : Bool) (l : List Char) : Option JsNum :=
  if l = jstr "Infinity" then some (.inf neg)
  else (parseUnsignedDec l).map (fun q => .num (if neg then -q else q))

/-- JS `Number()` on a string, as applied to `auth_date`: whitespace trimmed,
empty string is 0, hex/octal/binary integer literals (unsigned only),
otherwise an optionally signed decimal literal or `Infinity`; `none` models
NaN. -/
def jsNumber (s : List Char) : Option JsNum :=
  match jsTrim s with
  | [] => some (.num 0)
  | '0' :: 'x' :: ds => (digitsValBase 16 ds).map (fun n => .num (n : ℚ))
  | '0' :: 'X' :: ds => (digitsValBase 16 ds).map (fun n => .num (n : ℚ))
  | '0' :: 'o' :: ds => (digitsValBase 8 ds).map (fun n => .num (n : ℚ))
  | '0' :: 'O' :: ds => (digitsValBase 8 ds).map (fun n => .num (n : ℚ))
  | '0' :: 'b' :: ds => (digitsValBase 2 ds).map (fun n => .num (n : ℚ))
  | '0' :: 'B' :: ds => (digitsValBase 2 ds).map (fun n => .num (n : ℚ))
  | '+' :: rest => parseSigned false rest
  | '-' :: rest => parseSigned true rest
  | t => parseSigned false t

/-- The JS test `Date.now() / 1000 - authDate > 24 * 3600` on the idealised
number line, with `now` in integer seconds: for a finite `authDate = q` this
is `q < now - 24 * 3600` (the same inequality rearranged, exact in ℚ);
`now - (+inf) = -inf` never exceeds the bound and `now - (-inf) = +inf`
always does. -/
def ageExceeded (nowSeconds : Int) (a : JsNum) : Prop :=
  match a with
  | .num q => q < ((nowSeconds - 24 * 3600 : Int) : ℚ)
  | .inf neg => neg = true

instance (nowSeconds : Int) : (a : JsNum) → Decidable (ageExceeded nowSeconds a)
  | .num q => inferInstanceAs (Decidable (q < ((nowSeconds - 24 * 3600 : Int) : ℚ)))
  | .inf neg => inferInstanceAs (Decidable (neg = true))

/-- Key order used by the verifier: JS `Array.prototype.sort()` with the
default (stable, code-unit lexicographic) comparison, modelled by a stable
insertion sort under `lexR`. -/
def sortKeys (ks : List (List Char)) : List (List Char) :=
  List.insertionSort lexR ks

/-- The `dataCheckString` built in `verifyTelegram` (src/server.js lines
38-41): keys of the remaining entries, sorted ascending, each rendered as
`key=value` (first value, as `URLSearchParams.get` returns), joined by
newlines with no trailing separator. -/
def dataCheckString (url : Params) : List Char :=
  List.intercalate (jstr "\n")
    ((sortKeys (url.map Prod.fst)).map
      (fun k => k ++ jstr "=" ++ (getParam url k).getD []))

/-- The string handed to `Number(...)` for `auth_date` in `verifyTelegram`:
`url.get('auth_date') || '0'` (null or empty both yield `'0'`). -/
def authDateRaw (url : Params) : List Char :=
  match getParam url (jstr "auth_date") with
  | none => jstr "0"
  | some s => if s = [] then jstr "0" else s

/-- Translation of `verifyTelegram` (src/server.js lines 31-62 and
src/unnamed/part_000 lines 31-59; the two copies differ only in logging).
`initData` is the parsed query string; `sha256` and `hmacHex` are the abstract
crypto primitives (`hmacHex key msg` is the lowercase-hex HMAC-SHA256).
Errors carry the thrown `Error` messages of the source. -/
def verifyTelegram (verifyOff : Bool) (botToken : List Char)
    (sha256 : List Char → List Char)
    (hmacHex : List Char → List Char → List Char)
    (nowSeconds : Int) (initData : Params) : Except String Unit :=
  if verifyOff then .ok () else
  let hash := getParam initData (jstr "hash")
  let url := deleteParam initData (jstr "hash")
  let dcs := dataCheckString url
  if botToken = [] then .error "Server misconfigured: no BOT_TOKEN" else
  let secret := sha256 botToken
  let computed := hmacHex secret dcs
  if hash ≠ some computed then .error "Bad Telegram signature" else
  match jsNumber (authDateRaw url) with
  | none => .error "Auth expired"
  | some authDate =>
    if authDate = JsNum.num 0 ∨ ageExceeded nowSeconds authDate then
      .error "Auth expired"
    else .ok ()

/-- The ternary `u.startsWith('@') ? u : '@' + u` used by both resolvers. -/
def withMarker (l : List Char) : List Char :=
  if jsStartsWith l (jstr "@") then l else '@' :: l

/-- The ternary `raw.startsWith('@') ? raw.slice(1) : raw` of part_000. -/
def sansMarker (l : List Char) : List Char :=
  if jsStartsWith l (jstr "@") then l.drop 1 else l

/-- Ownership row from the `ProductOwners!A2:D` range: columns
[0]=sku, [1]=productId, [2]=ownerIdentity, [3]=notes; rows may be short. -/
abbrev OwnerRow := List (List Char)

/-- Translation of `getProductOwnersBySellerUsername` from src/server.js lines
91-103, with the fetched rows passed in: the lowercased (untrimmed) owner cell
must equal the lowercased with-marker username; missing cells read as `''`. -/
def getProductOwnersServer (username : List Char) (rows : List OwnerRow) :
    List (List Char × List Char) :=
  let want := jsLower (withMarker username)
  (rows.filter (fun x => decide (jsLower (x.getD 2 []) = want))).map
    (fun x => (x.getD 0 [], x.getD 1 []))

/-- Translation of `getProductOwnersBySellerUsername` from src/unnamed/part_000
lines 85-103: both sides trimmed and lowercased, and the cell may equal either
the with-marker or the without-marker form of the username. -/
def getProductOwnersPart (username : List Char) (rows : List OwnerRow) :
    List (List Char × List Char) :=
  let raw := jsLower (jsTrim username)
  let wantAt := withMarker raw
  let wantNo := sansMarker raw
  (rows.filter (fun x =>
      let cell := jsLower (jsTrim (x.getD 2 []))
      decide (cell = wantAt) || decide (cell = wantNo))).map
    (fun x => (x.getD 0 [], x.getD 1 []))

/-- Order record from the shop service; only the free-text fields read by the
`/api/me/orders` filter are modelled, absent fields as `none`. -/
structure TildaOrder where
  email : Option (List Char) := none
  phone : Option (List Char) := none
  name : Option (List Char) := none
  address : Option (List Char) := none
  comment : Option (List Char) := none
  payment_comment : Option (List Char) := none
  delivery_comment : Option (List Char) := none
deriving DecidableEq, Repr

/-- Haystack built in the `/api/me/orders` filter (src/server.js lines
150-161): the seven fields, `filter(Boolean)` dropping absent and empty ones,
space-joined, lowercased. -/
def orderHay (o : TildaOrder) : List Char :=
  jsLower (List.intercalate (jstr " ")
    (([o.email, o.phone, o.name, o.address, o.comment, o.payment_comment,
       o.delivery_comment].filterMap id).filter (fun s => decide (s ≠ []))))

/-- The `/api/me/orders` matcher (src/server.js lines 145-163): username
lowercased, empty username short-circuits to `[]`, otherwise an order is kept
when its haystack includes `'@' + username` or `username`. -/
def matchOrders (username : List Char) (orders : List TildaOrder) :
    List TildaOrder :=
  let uname := jsLower username
  if uname = [] then []
  else orders.filter (fun o =>
    inclTest ('@' :: uname) (orderHay o) || inclTest uname (orderHay o))

/-- Product detail returned by the shop service for one product id. -/
structure TildaProduct where
  title : List Char
  price : List Char
  images : Option (List (List Char)) := none
deriving DecidableEq, Repr

/-- Item pushed onto the `/api/me/sales` response for one resolved link. -/
structure SaleItem where
  sku : List Char
  tildaId : List Char
  title : List Char
  price : List Char
  images : List (List Char)
deriving DecidableEq, Repr

/-- The object pushed for link `(sku, productId)` and fetched product `p`. -/
def mkSaleItem (link : List Char × List Char) (p : TildaProduct) : SaleItem :=
  { sku := link.1
    tildaId := link.2
    title := p.title
    price := p.price
    images := p.images.getD [] }

/-- The sequential product loop of `/api/me/sales` (src/server.js lines
177-189): per link the fetch may throw (`.error`, propagated by the `await`
into the route's catch), return nothing (`.ok none`, the link is skipped by
`if (p)`), or return a product (pushed in input order). -/
def salesLoop (fetchProduct : List Char → Except String (Option TildaProduct)) :
    List (List Char × List Char) → Except String (List SaleItem)
  | [] => .ok []
  | link :: rest =>
    match fetchProduct link.2 with
    | .error e => .error e
    | .ok none => salesLoop fetchProduct rest
    | .ok (some p) =>
      match salesLoop fetchProduct rest with
      | .error e => .error e
      | .ok out => .ok (mkSaleItem link p :: out)

/-- Client-asserted user object from `initDataUnsafe.user`; all fields may be
absent (`initDataUnsafe?.user || {}` can be the empty object). -/
structure TgUser where
  id : Option Int := none
  username : Option (List Char) := none
  first_name : Option (List Char) := none
  last_name : Option (List Char) := none
deriving DecidableEq, Repr

/-- The row appended by `appendUserRow` (src/server.js lines 76-88):
`String(id)` (the string "undefined" when absent, as in JS), the optional
strings defaulted to `''`, two blanks, and the timestamp twice. -/
def userRow (nowIso : List Char) (u : TgUser) : List (List Char) :=
  [jstr (match u.id with | some i => toString i | none => "undefined"),
   u.username.getD [], u.first_name.getD [], u.last_name.getD [],
   [], [], nowIso, nowIso]

/-- Request body of `/api/me`: `initData` is the (already parsed) signed
payload, `user` the client-asserted user from `initDataUnsafe`. -/
structure MeRequest where
  initData : Option Params := none
  user : Option TgUser := none

/-- Response of `/api/me`: `res.json({ok: true, user})` or the 400 rejection
`res.status(400).json({error})`. -/
inductive ApiMeResp where
  | ok (id : Option Int) (username : Option (List Char))
  | badRequest (msg : String)
deriving DecidableEq, Repr

/-- The `/api/me` handler (src/server.js lines 128-138) as a state transformer
on the Users sheet: verification failure is caught and answered with 400, the
sheet untouched; on success the row is appended when the sheet is configured,
then `{ok, user}` is returned. -/
def apiMe (verifyOff : Bool) (botToken : List Char)
    (sha256 : List Char → List Char)
    (hmacHex : List Char → List Char → List Char)
    (nowSeconds : Int) (hasSheetsConfig : Bool) (nowIso : List Char)
    (req : Option MeRequest) (store : List (List (List Char))) :
    ApiMeResp × List (List (List Char)) :=
  let body := req.getD {}
  match verifyTelegram verifyOff botToken sha256 hmacHex nowSeconds
      (body.initData.getD []) with
  | .error e => (.badRequest e, store)
  | .ok () =>
    let u := body.user.getD {}
    let store' := if hasSheetsConfig then store ++ [userRow nowIso u] else store
    (.ok u.id u.username, store')

/-! Helper lemmas. -/

/-- Value of `Char.ofNat` on the lowercase-letter range. -/
theorem charOfNat_toNat (n : Nat) (h1 : 97 ≤ n) (h2 : n ≤ 122) :
    (Char.ofNat n).toNat = n := by
  have hv : n.isValidChar := Or.inl (by omega)
  rw [Char.ofNat, dif_pos hv]
  rfl

/-- Lowercasing maps no character onto `'@'` except `'@'` itself. -/
theorem jsLowerChar_at_iff (c : Char) : jsLowerChar c = '@' ↔ c = '@' := by
  constructor
  · intro hc
    unfold jsLowerChar at hc
    split at hc
    · exfalso
      rename_i hcond
      have h1 : (Char.ofNat (c.toNat + 32)).toNat = c.toNat + 32 :=
        charOfNat_toNat _ (by omega) (by omega)
      rw [hc] at h1
      have h2 : ('@').toNat = 64 := by decide
      omega
    · exact hc
  · intro hc
    subst hc
    decide

/-- Soundness and completeness of `prefixTest` for `List.IsPrefix`. -/
theorem prefixTest_iff : ∀ n h : List Char, prefixTest n h = true ↔ n <+: h
  | [], h => by simp [prefixTest]
  | a :: as, [] => by simp [prefixTest]
  | a :: as, b :: bs => by
    simp [prefixTest, List.cons_prefix_cons, prefixTest_iff as bs]

/-- Soundness and completeness of `inclTest` for `List.IsInfix`: the JS
`includes` test holds exactly when the needle is a contiguous segment. -/
theorem inclTest_iff : ∀ (h n : List Char), inclTest n h = true ↔ n <:+: h
  | [], n => by simp [inclTest, prefixTest_iff, List.infix_nil, List.prefix_nil]
  | c :: rest, n => by
    simp [inclTest, prefixTest_iff, inclTest_iff rest n, List.infix_cons_iff]

/-- A haystack containing `'@' + u` also contains `u`, so the disjunction of
the two `includes` tests collapses to the plain one. -/
theorem incl_at_redundant (hay u : List Char) :
    (inclTest ('@' :: u) hay || inclTest u hay) = inclTest u hay := by
  cases hu : inclTest u hay
  · cases hat : inclTest ('@' :: u) hay
    · rfl
    · exfalso
      have h1 : ('@' :: u) <:+: hay := (inclTest_iff hay ('@' :: u)).mp hat
      have h2 : u <:+: ('@' :: u) := (List.suffix_cons '@' u).isInfix
      have h3 : u <:+: hay := h2.trans h1
      rw [(inclTest_iff hay u).mpr h3] at hu
      exact Bool.noConfusion hu
  · simp

/-- Transitivity of the code-unit lexicographic comparison. -/
theorem lexLe_trans : ∀ a b c : List Char,
    lexLe a b = true → lexLe b c = true → lexLe a c = true
  | [], _, _, _, _ => rfl
  | x :: xs, [], _, hab, _ => by simp [lexLe] at hab
  | x :: xs, y :: ys, [], _, hbc => by simp [lexLe] at hbc
  | x :: xs, y :: ys, z :: zs, hab, hbc => by
    simp only [lexLe] at hab hbc ⊢
    by_cases hxy : x = y
    · subst hxy
      rw [if_pos rfl] at hab
      by_cases hxz : x = z
      · subst hxz
        rw [if_pos rfl] at hbc ⊢
        exact lexLe_trans xs ys zs hab hbc
      · rw [if_neg hxz] at hbc ⊢
        exact hbc
    · rw [if_neg hxy] at hab
      have hlt : x < y := of_decide_eq_true hab
      by_cases hyz : y = z
      · subst hyz
        rw [if_neg hxy]
        exact hab
      · rw [if_neg hyz] at hbc
        have hlt2 : y < z := of_decide_eq_true hbc
        have hltz : x < z := lt_trans hlt hlt2
        rw [if_neg (ne_of_lt hltz)]
        exact decide_eq_true hltz

/-- Totality of the code-unit lexicographic comparison. -/
theorem lexLe_total : ∀ a b : List Char, lexLe a b = true ∨ lexLe b a = true
  | [], _ => Or.inl rfl
  | _ :: _, [] => Or.inr rfl
  | x :: xs, y :: ys => by
    by_cases hxy : x = y
    · subst hxy
      rcases lexLe_total xs ys with h | h
      · left
        simp [lexLe, h]
      · right
        simp [lexLe, h]
    · rcases lt_or_gt_of_ne hxy with h | h
      · left
        simp [lexLe, hxy, h]
      · right
        simp [lexLe, Ne.symm hxy, h]

/-- Normal form of `withMarker`: always a single `'@'` before the
marker-stripped identity. -/
theorem withMarker_eq_cons (a : List Char) :
    withMarker a = '@' :: sansMarker a := by
  cases a with
  | nil => rfl
  | cons c t =>
    by_cases hc : c = '@'
    · subst hc
      simp [withMarker, sansMarker, jsStartsWith, prefixTest]
    · simp [withMarker, sansMarker, jsStartsWith, prefixTest, Ne.symm hc]

/-- Stripping the marker from a marked string drops exactly the marker. -/
theorem sansMarker_cons_at (t : List Char) : sansMarker ('@' :: t) = t := by
  simp [sansMarker, jsStartsWith, prefixTest]

/-- Stripping the marker from an unmarked string is the identity. -/
theorem sansMarker_not_at {a : List Char}
    (h : jsStartsWith a (jstr "@") = false) : sansMarker a = a := by
  simp [sansMarker, h]

/-- When the input does not carry a doubled marker, its marker-stripped form
does not start with the marker. -/
theorem sansMarker_no_at {b : List Char}
    (hb : prefixTest (jstr "@@") b = false) :
    jsStartsWith (sansMarker b) (jstr "@") = false := by
  cases b with
  | nil => rfl
  | cons c t =>
    by_cases hc : c = '@'
    · subst hc
      rw [sansMarker_cons_at]
      cases t with
      | nil => rfl
      | cons d u =>
        by_cases hd : d = '@'
        · subst hd
          exfalso
          simp [jstr, prefixTest] at hb
        · simp [jsStartsWith, prefixTest, jstr, Ne.symm hd]
    · simp [sansMarker, jsStartsWith, prefixTest, jstr, Ne.symm hc]

/-- Lowercasing preserves whether a string starts with the marker. -/
theorem jsStartsWith_at_lower (l : List Char) :
    jsStartsWith (jsLower l) (jstr "@") = jsStartsWith l (jstr "@") := by
  cases l with
  | nil => rfl
  | cons c t =>
    show (decide ('@' = jsLowerChar c) && true) = (decide ('@' = c) && true)
    by_cases hc : c = '@'
    · subst hc
      rfl
    · have h1 : jsLowerChar c ≠ '@' := fun h => hc ((jsLowerChar_at_iff c).mp h)
      simp [Ne.symm hc, Ne.symm h1]

/-- Lowercasing commutes with ensuring the leading marker. -/
theorem jsLower_withMarker (u : List Char) :
    jsLower (withMarker u) = withMarker (jsLower u) := by
  rw [withMarker_eq_cons, withMarker]
  rw [jsStartsWith_at_lower]
  cases hu : jsStartsWith u (jstr "@")
  · rw [sansMarker_not_at hu]
    show jsLowerChar '@' :: jsLower u = '@' :: jsLower u
    norm_num [show jsLowerChar '@' = '@' from by decide]
  · cases u with
    | nil => simp [jsStartsWith, prefixTest, jstr] at hu
    | cons c t =>
      have hc : c = '@' := by
        by_cases h : c = '@'
        · exact h
        · simp [jsStartsWith, prefixTest, jstr, Ne.symm h] at hu
      subst hc
      rw [sansMarker_cons_at]
      show jsLowerChar '@' :: jsLower t = jsLowerChar '@' :: jsLower t
      rfl

/-- Ensuring the leading marker is idempotent. -/
theorem withMarker_idem (a : List Char) :
    withMarker (withMarker a) = withMarker a := by
  rw [withMarker_eq_cons a]
  simp [withMarker, jsStartsWith, prefixTest]

/-- The part_000 matching rule (cell equals the with-marker or the
without-marker form) coincides with marker-insensitive equality whenever the
queried identity carries no doubled marker. -/
theorem marker_eq_iff (a b : List Char)
    (hb : prefixTest (jstr "@@") b = false) :
    (a = withMarker b ∨ a = sansMarker b) ↔ withMarker a = withMarker b := by
  constructor
  · rintro (rfl | rfl)
    · exact withMarker_idem b
    · rw [withMarker_eq_cons b]
      rw [withMarker, sansMarker_no_at hb]
      simp
  · intro h
    rw [withMarker_eq_cons a, withMarker_eq_cons b] at h
    have h2 : sansMarker a = sansMarker b := by
      exact List.cons_injective h
    cases ha : jsStartsWith a (jstr "@")
    · right
      rw [← sansMarker_not_at ha]
      exact h2
    · left
      cases a with
      | nil => simp [jsStartsWith, prefixTest, jstr] at ha
      | cons c t =>
        have hc : c = '@' := by
          by_cases hcc : c = '@'
          · exact hcc
          · simp [jsStartsWith, prefixTest, jstr, Ne.symm hcc] at ha
        subst hc
        rw [withMarker_eq_cons b, ← h2, sansMarker_cons_at]

/-- Lowercasing preserves emptiness. -/
theorem jsLower_eq_nil_iff (l : List Char) : jsLower l = [] ↔ l = [] := by
  simp [jsLower]

/-- Reduction of `verifyTelegram` in enforced mode with a configured token:
the bypass and misconfiguration branches disappear. -/
theorem verify_reduce (sha256 : List Char → List Char)
    (hmacHex : List Char → List Char → List Char)
    (botToken : List Char) (nowSeconds : Int) (p : Params)
    (htok : botToken ≠ []) :
    verifyTelegram false botToken sha256 hmacHex nowSeconds p =
      if getParam p (jstr "hash") ≠
          some (hmacHex (sha256 botToken)
            (dataCheckString (deleteParam p (jstr "hash")))) then
        .error "Bad Telegram signature"
      else
        match jsNumber (authDateRaw (deleteParam p (jstr "hash"))) with
        | none => .error "Auth expired"
        | some authDate =>
          if authDate = JsNum.num 0 ∨ ageExceeded nowSeconds authDate then
            .error "Auth expired"
          else .ok () := by
  simp only [verifyTelegram, Bool.false_eq_true, if_false, if_neg htok]

/-! Claim theorems. -/

/-- C1: for every payload and secret token, `verifyTelegram` (enforced mode,
token configured) canonicalises by removing the `hash` entries, sorting the
remaining keys ascending (the sorted key list is ordered and a permutation of
the remaining keys), joining `key=value` lines with `\n` and no trailing
separator, and it fails with the signature-mismatch error exactly when the
HMAC of that string under the digest of the token differs from the extracted
`hash`. -/
theorem c1_verify_signature_canonical
    (sha256 : List Char → List Char)
    (hmacHex : List Char → List Char → List Char)
    (botToken : List Char) (nowSeconds : Int) (p : Params)
    (htok : botToken ≠ []) :
    List.Sorted lexR (sortKeys ((deleteParam p (jstr "hash")).map Prod.fst))
    ∧ (sortKeys ((deleteParam p (jstr "hash")).map Prod.fst)).Perm
        ((deleteParam p (jstr "hash")).map Prod.fst)
    ∧ (verifyTelegram false botToken sha256 hmacHex nowSeconds p =
          .error "Bad Telegram signature"
        ↔ getParam p (jstr "hash") ≠
            some (hmacHex (sha256 botToken)
              (List.intercalate (jstr "\n")
                ((sortKeys ((deleteParam p (jstr "hash")).map Prod.fst)).map
                  (fun k => k ++ jstr "=" ++
                    (getParam (deleteParam p (jstr "hash")) k).getD []))))) := by
  have hTot : IsTotal (List Char) lexR := ⟨fun a b => lexLe_total a b⟩
  have hTrans : IsTrans (List Char) lexR := ⟨fun a b c => lexLe_trans a b c⟩
  refine ⟨List.sorted_insertionSort lexR _, List.perm_insertionSort lexR _, ?_⟩
  show verifyTelegram false botToken sha256 hmacHex nowSeconds p =
      .error "Bad Telegram signature" ↔
      getParam p (jstr "hash") ≠
        some (hmacHex (sha256 botToken)
          (dataCheckString (deleteParam p (jstr "hash"))))
  rw [verify_reduce sha256 hmacHex botToken nowSeconds p htok]
  by_cases h : getParam p (jstr "hash") =
      some (hmacHex (sha256 botToken)
        (dataCheckString (deleteParam p (jstr "hash"))))
  · rw [if_neg (not_not_intro h)]
    simp only [h, ne_eq, not_true_eq_false, iff_false]
    cases hnum : jsNumber (authDateRaw (deleteParam p (jstr "hash"))) with
    | none =>
      intro hcontra
      exact absurd (Except.error.inj hcontra) (by decide)
    | some a =>
      show ¬ (if a = JsNum.num 0 ∨ ageExceeded nowSeconds a then
          (Except.error "Auth expired" : Except String Unit)
        else .ok ()) = .error "Bad Telegram signature"
      by_cases hcond : a = JsNum.num 0 ∨ ageExceeded nowSeconds a
      · rw [if_pos hcond]
        intro hcontra
        exact absurd (Except.error.inj hcontra) (by decide)
      · rw [if_neg hcond]
        intro hcontra
        exact Except.noConfusion hcontra
  · rw [if_pos h]
    simp only [ne_eq, h, not_false_eq_true, iff_true]

/-- C1 witness: the theorem applied to a concrete three-entry payload with
abstract primitives instantiated by concrete functions. -/
theorem c1_witness :
    ((jstr "t") ≠ []) ∧
    (List.Sorted lexR (sortKeys ((deleteParam
        [(jstr "b", jstr "2"), (jstr "a", jstr "1"), (jstr "hash", jstr "x")]
        (jstr "hash")).map Prod.fst))
    ∧ (sortKeys ((deleteParam
        [(jstr "b", jstr "2"), (jstr "a", jstr "1"), (jstr "hash", jstr "x")]
        (jstr "hash")).map Prod.fst)).Perm
        ((deleteParam
        [(jstr "b", jstr "2"), (jstr "a", jstr "1"), (jstr "hash", jstr "x")]
        (jstr "hash")).map Prod.fst)
    ∧ (verifyTelegram false (jstr "t") (fun s => s) (fun _ m => m) 5
          [(jstr "b", jstr "2"), (jstr "a", jstr "1"), (jstr "hash", jstr "x")] =
          .error "Bad Telegram signature"
        ↔ getParam [(jstr "b", jstr "2"), (jstr "a", jstr "1"), (jstr "hash", jstr "x")]
            (jstr "hash") ≠
            some ((fun (_ m : List Char) => m) ((fun (s : List Char) => s) (jstr "t"))
              (List.intercalate (jstr "\n")
                ((sortKeys ((deleteParam
                    [(jstr "b", jstr "2"), (jstr "a", jstr "1"), (jstr "hash", jstr "x")]
                    (jstr "hash")).map Prod.fst)).map
                  (fun k => k ++ jstr "=" ++
                    (getParam (deleteParam
                      [(jstr "b", jstr "2"), (jstr "a", jstr "1"), (jstr "hash", jstr "x")]
                      (jstr "hash")) k).getD [])))))) :=
  ⟨by decide, c1_verify_signature_canonical (fun s => s) (fun _ m => m) (jstr "t") 5
    [(jstr "b", jstr "2"), (jstr "a", jstr "1"), (jstr "hash", jstr "x")] (by decide)⟩

/-- C2 counterexample: with a passing signature, a payload with no
`auth_date` and a payload with a stale `auth_date` produce the same error
value `'Auth expired'`, so the code does not raise a distinct
missing-or-invalid-auth-date error as the claim states; moreover a fresh
non-integer `auth_date` of `1700000000.5` makes the code succeed, refuting
the claim's `parses to a nonzero integer` condition. -/
theorem c2_counterexample :
    (verifyTelegram false (jstr "t") (fun _ => []) (fun _ _ => jstr "h") 1000000
        [(jstr "hash", jstr "h")] =
      verifyTelegram false (jstr "t") (fun _ => []) (fun _ _ => jstr "h") 1000000
        [(jstr "auth_date", jstr "1"), (jstr "hash", jstr "h")])
    ∧ verifyTelegram false (jstr "t") (fun _ => []) (fun _ _ => jstr "h") 1000000
        [(jstr "hash", jstr "h")] = .error "Auth expired"
    ∧ verifyTelegram false (jstr "t") (fun _ => []) (fun _ _ => jstr "h") 1700000010
        [(jstr "auth_date", jstr "1700000000.5"), (jstr "hash", jstr "h")] = .ok () :=
  ⟨rfl, rfl, rfl⟩

/-- C2 (amended): when the signature check passes, `verifyTelegram` succeeds
exactly when `auth_date` parses under JS `Number` to a non-NaN, nonzero value
that fails the age test `now - authDate > 86400` — for a finite value that
means `nowSeconds - authDate ≤ 86400`, a parse of `+Infinity` always passes
the test and `-Infinity` never does; the code accepts any JS-numeric form
(fractional, exponent, hex, `Infinity`), not only integers, and every failure
past the signature check carries the single error `'Auth expired'` (absent,
zero and unparseable `auth_date` included). -/
theorem c2_auth_date_gate
    (sha256 : List Char → List Char)
    (hmacHex : List Char → List Char → List Char)
    (botToken : List Char) (nowSeconds : Int) (p : Params)
    (htok : botToken ≠ [])
    (hsig : getParam p (jstr "hash") =
      some (hmacHex (sha256 botToken)
        (dataCheckString (deleteParam p (jstr "hash"))))) :
    (verifyTelegram false botToken sha256 hmacHex nowSeconds p = .ok ()
      ↔ ∃ a : JsNum, jsNumber (authDateRaw (deleteParam p (jstr "hash"))) = some a
          ∧ a ≠ JsNum.num 0 ∧ ¬ ageExceeded nowSeconds a)
    ∧ (∀ q : ℚ, ¬ ageExceeded nowSeconds (JsNum.num q) ↔
        (nowSeconds : ℚ) - q ≤ 24 * 3600)
    ∧ (¬ ageExceeded nowSeconds (JsNum.inf false)
        ∧ ageExceeded nowSeconds (JsNum.inf true))
    ∧ (∀ e, verifyTelegram false botToken sha256 hmacHex nowSeconds p = .error e →
        e = "Auth expired") := by
  have hfin : ∀ q : ℚ, ¬ ageExceeded nowSeconds (JsNum.num q) ↔
      (nowSeconds : ℚ) - q ≤ 24 * 3600 := by
    intro q
    show ¬ (q < ((nowSeconds - 24 * 3600 : Int) : ℚ)) ↔ _
    rw [not_lt]
    constructor
    · intro hq
      push_cast at hq
      linarith
    · intro hq
      push_cast
      linarith
  have hinf : ¬ ageExceeded nowSeconds (JsNum.inf false)
      ∧ ageExceeded nowSeconds (JsNum.inf true) := by
    constructor
    · show ¬ (false = true)
      simp
    · rfl
  rw [verify_reduce sha256 hmacHex botToken nowSeconds p htok,
    if_neg (not_not_intro hsig)]
  cases hnum : jsNumber (authDateRaw (deleteParam p (jstr "hash"))) with
  | none =>
    refine ⟨?_, hfin, hinf, ?_⟩
    · constructor
      · intro hcontra
        exact Except.noConfusion hcontra
      · rintro ⟨a, ha, -, -⟩
        exact Option.noConfusion ha
    · intro e he
      exact (Except.error.inj he).symm
  | some a =>
    show ((if a = JsNum.num 0 ∨ ageExceeded nowSeconds a then
          (Except.error "Auth expired" : Except String Unit) else .ok ()) = .ok ()
        ↔ ∃ b : JsNum, some a = some b ∧ b ≠ JsNum.num 0 ∧ ¬ ageExceeded nowSeconds b)
      ∧ _ ∧ _ ∧
      (∀ e, (if a = JsNum.num 0 ∨ ageExceeded nowSeconds a then
          (Except.error "Auth expired" : Except String Unit) else .ok ()) = .error e →
          e = "Auth expired")
    by_cases hcond : a = JsNum.num 0 ∨ ageExceeded nowSeconds a
    · rw [if_pos hcond]
      refine ⟨?_, hfin, hinf, ?_⟩
      · constructor
        · intro hcontra
          exact Except.noConfusion hcontra
        · rintro ⟨b, hb, hb0, hbage⟩
          have hba : b = a := (Option.some.inj hb).symm
          subst hba
          rcases hcond with h0 | hage
          · exact absurd h0 hb0
          · exact absurd hage hbage
      · intro e he
        exact (Except.error.inj he).symm
    · rw [if_neg hcond]
      rw [not_or] at hcond
      refine ⟨?_, hfin, hinf, ?_⟩
      · constructor
        · intro _
          exact ⟨a, rfl, hcond.1, hcond.2⟩
        · intro _
          rfl
      · intro e he
        exact Except.noConfusion he

/-- C2 witness: the amended theorem applied to a fresh, correctly signed
concrete payload. -/
theorem c2_witness :
    ((jstr "t") ≠ []) ∧
    (getParam [(jstr "auth_date", jstr "5"), (jstr "hash", jstr "h")] (jstr "hash") =
      some ((fun (_ _ : List Char) => jstr "h") ((fun (_ : List Char) => ([] : List Char)) (jstr "t"))
        (dataCheckString (deleteParam
          [(jstr "auth_date", jstr "5"), (jstr "hash", jstr "h")] (jstr "hash"))))) ∧
    ((verifyTelegram false (jstr "t") (fun _ => []) (fun _ _ => jstr "h") 10
        [(jstr "auth_date", jstr "5"), (jstr "hash", jstr "h")] = .ok ()
      ↔ ∃ a : JsNum, jsNumber (authDateRaw (deleteParam
          [(jstr "auth_date", jstr "5"), (jstr "hash", jstr "h")] (jstr "hash"))) = some a
          ∧ a ≠ JsNum.num 0 ∧ ¬ ageExceeded 10 a)
    ∧ (∀ q : ℚ, ¬ ageExceeded 10 (JsNum.num q) ↔ ((10 : Int) : ℚ) - q ≤ 24 * 3600)
    ∧ (¬ ageExceeded 10 (JsNum.inf false) ∧ ageExceeded 10 (JsNum.inf true))
    ∧ (∀ e, verifyTelegram false (jstr "t") (fun _ => []) (fun _ _ => jstr "h") 10
        [(jstr "auth_date", jstr "5"), (jstr "hash", jstr "h")] = .error e →
        e = "Auth expired")) :=
  ⟨by decide, rfl,
    c2_auth_date_gate (fun _ => []) (fun _ _ => jstr "h") (jstr "t") 10
      [(jstr "auth_date", jstr "5"), (jstr "hash", jstr "h")] (by decide) rfl⟩

/-- C3 counterexample: for the server.js resolver, a row whose owner cell
equals the query identity after trimming and lowercasing but carries no
marker is NOT matched, refuting marker-insensitivity of that copy. -/
theorem c3_counterexample :
    (jsLower (jsTrim ([[jstr "SKU2", jstr "P2", jstr "carol", jstr "-"]].headI.getD 2 [])) =
      jsLower (jsTrim (jstr "carol"))) ∧
    getProductOwnersServer (jstr "carol")
      [[jstr "SKU2", jstr "P2", jstr "carol", jstr "-"]] = [] := by
  constructor
  · decide
  · decide

/-- C3 (amended): the part_000 resolver matches a row exactly when the
trimmed lowercased owner cell and query identity agree once each is given its
single leading marker (provided the normalised query carries no doubled
marker); the server.js copy instead requires the untrimmed lowercased cell to
equal the with-marker form. On the scenario rows with query `"Bob"`, both
copies resolve exactly `[(SKU1, P1)]`. -/
theorem c3_resolver_marker_rule (username : List Char) (rows : List OwnerRow)
    (h : prefixTest (jstr "@@") (jsLower (jsTrim username)) = false) :
    getProductOwnersPart username rows =
      (rows.filter (fun x =>
        decide (withMarker (jsLower (jsTrim (x.getD 2 []))) =
          withMarker (jsLower (jsTrim username))))).map
        (fun x => (x.getD 0 [], x.getD 1 []))
    ∧ getProductOwnersPart (jstr "Bob")
        [[jstr "SKU1", jstr "P1", jstr "@bob", jstr "-"],
         [jstr "SKU2", jstr "P2", jstr "carol", jstr "-"]] =
        [(jstr "SKU1", jstr "P1")]
    ∧ getProductOwnersServer (jstr "Bob")
        [[jstr "SKU1", jstr "P1", jstr "@bob", jstr "-"],
         [jstr "SKU2", jstr "P2", jstr "carol", jstr "-"]] =
        [(jstr "SKU1", jstr "P1")] := by
  refine ⟨?_, by decide, by decide⟩
  simp only [getProductOwnersPart]
  congr 1
  apply List.filter_congr
  intro x _
  have hiff := marker_eq_iff (jsLower (jsTrim (x.getD 2 [])))
    (jsLower (jsTrim username)) h
  by_cases hw : withMarker (jsLower (jsTrim (x.getD 2 []))) =
      withMarker (jsLower (jsTrim username))
  · rcases hiff.mpr hw with hcase | hcase
    · rw [decide_eq_true hcase, Bool.true_or, decide_eq_true hw]
    · rw [decide_eq_true hcase, Bool.or_true, decide_eq_true hw]
  · have ha : jsLower (jsTrim (x.getD 2 [])) ≠ withMarker (jsLower (jsTrim username)) :=
      fun hc => hw (hiff.mp (Or.inl hc))
    have hb : jsLower (jsTrim (x.getD 2 [])) ≠ sansMarker (jsLower (jsTrim username)) :=
      fun hc => hw (hiff.mp (Or.inr hc))
    rw [decide_eq_false ha, decide_eq_false hb, decide_eq_false hw, Bool.or_false]

/-- C3 witness: the amended theorem applied to the scenario query and rows. -/
theorem c3_witness :
    (prefixTest (jstr "@@") (jsLower (jsTrim (jstr "Bob"))) = false) ∧
    (getProductOwnersPart (jstr "Bob")
        [[jstr "SKU1", jstr "P1", jstr "@bob", jstr "-"],
         [jstr "SKU2", jstr "P2", jstr "carol", jstr "-"]] =
      ([[jstr "SKU1", jstr "P1", jstr "@bob", jstr "-"],
        [jstr "SKU2", jstr "P2", jstr "carol", jstr "-"]].filter (fun x =>
        decide (withMarker (jsLower (jsTrim (x.getD 2 []))) =
          withMarker (jsLower (jsTrim (jstr "Bob")))))).map
        (fun x => (x.getD 0 [], x.getD 1 []))
    ∧ getProductOwnersPart (jstr "Bob")
        [[jstr "SKU1", jstr "P1", jstr "@bob", jstr "-"],
         [jstr "SKU2", jstr "P2", jstr "carol", jstr "-"]] =
        [(jstr "SKU1", jstr "P1")]
    ∧ getProductOwnersServer (jstr "Bob")
        [[jstr "SKU1", jstr "P1", jstr "@bob", jstr "-"],
         [jstr "SKU2", jstr "P2", jstr "carol", jstr "-"]] =
        [(jstr "SKU1", jstr "P1")]) :=
  ⟨by decide, c3_resolver_marker_rule (jstr "Bob")
    [[jstr "SKU1", jstr "P1", jstr "@bob", jstr "-"],
     [jstr "SKU2", jstr "P2", jstr "carol", jstr "-"]] (by decide)⟩

/-- C4 counterexample: with the marker-carrying identity `"@alice"`, the
order filter matches neither the order whose email contains
`alice@example.com` nor the order whose comment contains `alice`, because the
code checks `'@' + username` and `username` verbatim and never strips the
marker. -/
theorem c4_counterexample :
    matchOrders (jstr "@alice")
      [{ email := some (jstr "alice@example.com") },
       { comment := some (jstr "ship to alice please") }] = [] := by
  decide

/-- C4 (amended): for a non-empty identity, the order matcher keeps exactly
the orders whose haystack contains the lowercased identity itself (the
`'@' + username` disjunct being redundant); the identity without marker
`"alice"` matches both example orders. -/
theorem c4_matcher_rule (username : List Char) (orders : List TildaOrder)
    (h : username ≠ []) :
    matchOrders username orders =
      orders.filter (fun o => inclTest (jsLower username) (orderHay o))
    ∧ matchOrders (jstr "alice")
        [{ email := some (jstr "alice@example.com") },
         { comment := some (jstr "ship to alice please") }] =
        [{ email := some (jstr "alice@example.com") },
         { comment := some (jstr "ship to alice please") }] := by
  constructor
  · unfold matchOrders
    rw [if_neg (fun hh => h ((jsLower_eq_nil_iff username).mp hh))]
    exact List.filter_congr (fun o _ =>
      incl_at_redundant (orderHay o) (jsLower username))
  · decide

/-- C4 witness: the amended theorem applied to a concrete identity and
order list. -/
theorem c4_witness :
    ((jstr "Alice") ≠ []) ∧
    (matchOrders (jstr "Alice")
        [{ email := some (jstr "alice@example.com") : TildaOrder }] =
      List.filter (fun o => inclTest (jsLower (jstr "Alice")) (orderHay o))
        [{ email := some (jstr "alice@example.com") : TildaOrder }]
    ∧ matchOrders (jstr "alice")
        [{ email := some (jstr "alice@example.com") },
         { comment := some (jstr "ship to alice please") }] =
        [{ email := some (jstr "alice@example.com") },
         { comment := some (jstr "ship to alice please") }]) :=
  ⟨by decide, c4_matcher_rule (jstr "Alice")
    [{ email := some (jstr "alice@example.com") }] (by decide)⟩

/-- C5 counterexample: a payload with no `hash` key fails with the
signature-mismatch error `'Bad Telegram signature'`, not with a distinct
missing-signature error as the claim states. -/
theorem c5_counterexample :
    (getParam [(jstr "auth_date", jstr "1")] (jstr "hash") = none) ∧
    verifyTelegram false (jstr "tok") (fun _ => []) (fun _ _ => jstr "deadbeef") 10
      [(jstr "auth_date", jstr "1")] = .error "Bad Telegram signature" :=
  ⟨rfl, rfl⟩

/-- C5 (amended): for every payload in which the `hash` key is absent,
`verifyTelegram` (enforced mode, token configured) fails with the
signature-mismatch error `'Bad Telegram signature'`; the code has no separate
missing-signature branch. -/
theorem c5_missing_hash_mismatch
    (sha256 : List Char → List Char)
    (hmacHex : List Char → List Char → List Char)
    (botToken : List Char) (nowSeconds : Int) (p : Params)
    (htok : botToken ≠ [])
    (hnone : getParam p (jstr "hash") = none) :
    verifyTelegram false botToken sha256 hmacHex nowSeconds p =
      .error "Bad Telegram signature" := by
  rw [verify_reduce sha256 hmacHex botToken nowSeconds p htok, if_pos]
  rw [hnone]
  exact Option.noConfusion

/-- C5 witness: the amended theorem applied to a concrete hash-less payload. -/
theorem c5_witness :
    ((jstr "t") ≠ []) ∧
    (getParam [(jstr "auth_date", jstr "1")] (jstr "hash") = none) ∧
    verifyTelegram false (jstr "t") (fun _ => []) (fun _ _ => jstr "h") 10
      [(jstr "auth_date", jstr "1")] = .error "Bad Telegram signature" :=
  ⟨by decide, rfl,
    c5_missing_hash_mismatch (fun _ => []) (fun _ _ => jstr "h") (jstr "t") 10
      [(jstr "auth_date", jstr "1")] (by decide) rfl⟩

/-- C6 counterexample: a link whose product fetch throws is not skipped; the
exception propagates and the whole sales operation aborts instead of
returning a list. -/
theorem c6_counterexample :
    salesLoop (fun _ => .error "Tilda request failed: FetchError")
      [(jstr "SKU1", jstr "P1")] = .error "Tilda request failed: FetchError"
    ∧ salesLoop (fun _ => .error "Tilda request failed: FetchError")
      [(jstr "SKU1", jstr "P1")] ≠ .ok [] :=
  ⟨rfl, fun h => Except.noConfusion h⟩

/-- C6 (amended): when no fetch throws, the sales loop returns exactly the
assembled items of the links whose fetch produced a product, skipping the
links whose fetch returned nothing, in the resolver's input order (a
`filterMap` over the links). A throwing fetch aborts the operation instead. -/
theorem c6_sales_skip_rule
    (fetchProduct : List Char → Except String (Option TildaProduct))
    (links : List (List Char × List Char))
    (h : ∀ l ∈ links, ∀ e, fetchProduct l.2 ≠ .error e) :
    salesLoop fetchProduct links =
      .ok (links.filterMap (fun l =>
        match fetchProduct l.2 with
        | .ok (some p) => some (mkSaleItem l p)
        | _ => none)) := by
  induction links with
  | nil => rfl
  | cons link rest ih =>
    have hrest : ∀ l ∈ rest, ∀ e, fetchProduct l.2 ≠ .error e :=
      fun l hl => h l (List.mem_cons_of_mem link hl)
    cases hf : fetchProduct link.2 with
    | error e => exact absurd hf (h link (List.mem_cons_self link rest) e)
    | ok po =>
      cases po with
      | none =>
        simp only [salesLoop, hf]
        rw [ih hrest]
        simp [List.filterMap_cons, hf]
      | some p =>
        simp only [salesLoop, hf]
        rw [ih hrest]
        simp [List.filterMap_cons, hf]

/-- C6 witness: the amended theorem applied to a concrete fetcher that
returns a product for the first link and nothing for the second. -/
theorem c6_witness :
    (∀ l ∈ [(jstr "SKU1", jstr "P1"), (jstr "SKU2", jstr "P2")],
      ∀ e, (fun q => if q = jstr "P1" then
          Except.ok (some { title := jstr "Widget", price := jstr "10" })
        else (.ok none : Except String (Option TildaProduct))) l.2 ≠ .error e) ∧
    salesLoop (fun q => if q = jstr "P1" then
        Except.ok (some { title := jstr "Widget", price := jstr "10" })
      else (.ok none : Except String (Option TildaProduct)))
      [(jstr "SKU1", jstr "P1"), (jstr "SKU2", jstr "P2")] =
      .ok ([(jstr "SKU1", jstr "P1"), (jstr "SKU2", jstr "P2")].filterMap (fun l =>
        match (fun q => if q = jstr "P1" then
            Except.ok (some { title := jstr "Widget", price := jstr "10" })
          else (.ok none : Except String (Option TildaProduct))) l.2 with
        | .ok (some p) => some (mkSaleItem l p)
        | _ => none)) :=
  ⟨by
    intro l hl e
    dsimp only
    split
    · exact fun hc => Except.noConfusion hc
    · exact fun hc => Except.noConfusion hc,
  c6_sales_skip_rule _ [(jstr "SKU1", jstr "P1"), (jstr "SKU2", jstr "P2")]
    (by
      intro l hl e
      split
      · exact fun hc => Except.noConfusion hc
      · exact fun hc => Except.noConfusion hc)⟩

/-- C7: whenever verification of the request's payload fails, the `/api/me`
handler answers with the 400 rejection carrying the error message and the
user row store is returned unchanged — no row is appended. -/
theorem c7_identify_no_side_effect (verifyOff : Bool) (botToken : List Char)
    (sha256 : List Char → List Char)
    (hmacHex : List Char → List Char → List Char)
    (nowSeconds : Int) (hasSheetsConfig : Bool) (nowIso : List Char)
    (req : Option MeRequest) (store : List (List (List Char))) (e : String)
    (h : verifyTelegram verifyOff botToken sha256 hmacHex nowSeconds
        ((req.getD {}).initData.getD []) = .error e) :
    apiMe verifyOff botToken sha256 hmacHex nowSeconds hasSheetsConfig nowIso
        req store = (.badRequest e, store) := by
  simp only [apiMe]
  rw [h]

/-- C7 witness: the theorem applied to an absent request body, whose empty
payload fails the signature check, with a non-empty initial store. -/
theorem c7_witness :
    (verifyTelegram false (jstr "t") (fun _ => []) (fun _ _ => jstr "h") 10
        (((none : Option MeRequest).getD {}).initData.getD []) =
      .error "Bad Telegram signature") ∧
    apiMe false (jstr "t") (fun _ => []) (fun _ _ => jstr "h") 10 true (jstr "2025-01-01")
        none [[jstr "existing"]] =
      (.badRequest "Bad Telegram signature", [[jstr "existing"]]) :=
  ⟨rfl, c7_identify_no_side_effect false (jstr "t") (fun _ => []) (fun _ _ => jstr "h")
    10 true (jstr "2025-01-01") none [[jstr "existing"]] "Bad Telegram signature" rfl⟩

/-- C8 counterexample: for the part_000 resolver with identity `"@"` (whose
without-marker form is empty), a malformed row with no owner column is
matched rather than treated as non-matching. -/
theorem c8_counterexample :
    getProductOwnersPart (jstr "@") [[jstr "S", jstr "P"]] =
      [(jstr "S", jstr "P")] := by
  decide

/-- C8 (amended): both resolvers distribute over appended row lists
(order-preserving, element-local), the part_000 resolver returns `[]` when no
row matches either wanted form, and on rows missing the owner column the
server.js resolver always returns `[]` while the part_000 resolver does so
provided the identity's without-marker normal form is non-empty. -/
theorem c8_resolver_shape :
    (∀ (u : List Char) (r1 r2 : List OwnerRow),
      getProductOwnersPart u (r1 ++ r2) =
        getProductOwnersPart u r1 ++ getProductOwnersPart u r2
      ∧ getProductOwnersServer u (r1 ++ r2) =
        getProductOwnersServer u r1 ++ getProductOwnersServer u r2)
    ∧ (∀ (u : List Char) (rows : List OwnerRow),
      (∀ x ∈ rows,
        jsLower (jsTrim (x.getD 2 [])) ≠ withMarker (jsLower (jsTrim u)) ∧
        jsLower (jsTrim (x.getD 2 [])) ≠ sansMarker (jsLower (jsTrim u))) →
      getProductOwnersPart u rows = [])
    ∧ (∀ (u : List Char) (rows : List OwnerRow),
      (∀ x ∈ rows, x.length ≤ 2) →
      getProductOwnersServer u rows = []
      ∧ (sansMarker (jsLower (jsTrim u)) ≠ [] →
          getProductOwnersPart u rows = [])) := by
  refine ⟨?_, ?_, ?_⟩
  · intro u r1 r2
    constructor
    · simp [getProductOwnersPart, List.filter_append]
    · simp [getProductOwnersServer, List.filter_append]
  · intro u rows hno
    simp only [getProductOwnersPart, List.map_eq_nil_iff]
    rw [List.filter_eq_nil_iff]
    intro x hx hcon
    obtain ⟨ha, hb⟩ := hno x hx
    rcases (Bool.or_eq_true _ _).mp hcon with hc | hc
    · exact ha (of_decide_eq_true hc)
    · exact hb (of_decide_eq_true hc)
  · intro u rows hmal
    constructor
    · simp only [getProductOwnersServer, List.map_eq_nil_iff]
      rw [List.filter_eq_nil_iff]
      intro x hx hcon
      have hcell : x.getD 2 [] = [] := List.getD_eq_default _ _ (hmal x hx)
      have h1 := of_decide_eq_true hcon
      rw [hcell] at h1
      have h2 : ([] : List Char) = jsLower (withMarker u) := h1
      rw [jsLower_withMarker, withMarker_eq_cons] at h2
      exact List.noConfusion h2
    · intro hnn
      simp only [getProductOwnersPart, List.map_eq_nil_iff]
      rw [List.filter_eq_nil_iff]
      intro x hx hcon
      have hcell : x.getD 2 [] = [] := List.getD_eq_default _ _ (hmal x hx)
      rcases (Bool.or_eq_true _ _).mp hcon with hc | hc
      · have h1 := of_decide_eq_true hc
        rw [hcell] at h1
        have h2 : ([] : List Char) = withMarker (jsLower (jsTrim u)) := h1
        rw [withMarker_eq_cons] at h2
        exact List.noConfusion h2
      · have h1 := of_decide_eq_true hc
        rw [hcell] at h1
        have h2 : ([] : List Char) = sansMarker (jsLower (jsTrim u)) := h1
        exact hnn h2.symm

/-- C8 witness: the amended theorem's parts applied to concrete identities
and rows, hypotheses discharged by evaluation. -/
theorem c8_witness :
    (getProductOwnersPart (jstr "bob")
        ([[jstr "A", jstr "1", jstr "@bob"]] ++ [[jstr "B", jstr "2", jstr "bob"]]) =
      getProductOwnersPart (jstr "bob") [[jstr "A", jstr "1", jstr "@bob"]] ++
        getProductOwnersPart (jstr "bob") [[jstr "B", jstr "2", jstr "bob"]])
    ∧ getProductOwnersPart (jstr "bob") [[jstr "A", jstr "1", jstr "@carol"]] = []
    ∧ getProductOwnersServer (jstr "bob") [[jstr "S"]] = []
    ∧ getProductOwnersPart (jstr "bob") [[jstr "S"]] = [] :=
  ⟨(c8_resolver_shape.1 (jstr "bob") [[jstr "A", jstr "1", jstr "@bob"]]
      [[jstr "B", jstr "2", jstr "bob"]]).1,
   c8_resolver_shape.2.1 (jstr "bob") [[jstr "A", jstr "1", jstr "@carol"]] (by decide),
   (c8_resolver_shape.2.2 (jstr "bob") [[jstr "S"]] (by decide)).1,
   (c8_resolver_shape.2.2 (jstr "bob") [[jstr "S"]] (by decide)).2 (by decide)⟩

/-- C9 counterexample: the two resolver copies disagree — for identity
`"carol"` and a row whose owner cell carries no marker, server.js resolves
`[]` while part_000 resolves the row. -/
theorem c9_counterexample :
    getProductOwnersServer (jstr "carol")
      [[jstr "SKU2", jstr "P2", jstr "carol", jstr "-"]] ≠
    getProductOwnersPart (jstr "carol")
      [[jstr "SKU2", jstr "P2", jstr "carol", jstr "-"]] := by
  decide

/-- C9 (amended): the two resolver copies return identical sequences whenever
the username carries no surrounding whitespace and no doubled marker and
every row's owner cell carries no surrounding whitespace and starts with the
`@` marker. -/
theorem c9_resolvers_agree (username : List Char) (rows : List OwnerRow)
    (h1 : jsTrim username = username)
    (h2 : prefixTest (jstr "@@") (jsLower username) = false)
    (h3 : ∀ x ∈ rows, jsTrim (x.getD 2 []) = x.getD 2 [] ∧
      jsStartsWith (x.getD 2 []) (jstr "@") = true) :
    getProductOwnersServer username rows = getProductOwnersPart username rows := by
  simp only [getProductOwnersServer, getProductOwnersPart, h1]
  congr 1
  apply List.filter_congr
  intro x hx
  obtain ⟨htrim, hat⟩ := h3 x hx
  rw [htrim, jsLower_withMarker]
  have hcell : jsStartsWith (jsLower (x.getD 2 [])) (jstr "@") = true := by
    rw [jsStartsWith_at_lower]
    exact hat
  have hno : jsStartsWith (sansMarker (jsLower username)) (jstr "@") = false :=
    sansMarker_no_at h2
  have hne : jsLower (x.getD 2 []) ≠ sansMarker (jsLower username) := by
    intro he
    rw [he, hno] at hcell
    exact Bool.noConfusion hcell
  rw [decide_eq_false hne, Bool.or_false]

/-- C9 witness: the amended theorem applied to a concrete marker-carrying
row and clean username. -/
theorem c9_witness :
    (jsTrim (jstr "Bob") = jstr "Bob") ∧
    (prefixTest (jstr "@@") (jsLower (jstr "Bob")) = false) ∧
    (∀ x ∈ [[jstr "SKU1", jstr "P1", jstr "@bob", jstr "-"]],
      jsTrim (x.getD 2 []) = x.getD 2 [] ∧
      jsStartsWith (x.getD 2 []) (jstr "@") = true) ∧
    getProductOwnersServer (jstr "Bob") [[jstr "SKU1", jstr "P1", jstr "@bob", jstr "-"]] =
      getProductOwnersPart (jstr "Bob") [[jstr "SKU1", jstr "P1", jstr "@bob", jstr "-"]] :=
  ⟨by decide, by decide, by decide,
    c9_resolvers_agree (jstr "Bob") [[jstr "SKU1", jstr "P1", jstr "@bob", jstr "-"]]
      (by decide) (by decide) (by decide)⟩

/-- C10: for every haystack and non-empty username, the test
`hay.includes('@' + username) || hay.includes(username)` of the order filter
equals `hay.includes(username)` alone, so the marker-prefixed check never
changes which orders match. -/
theorem c10_marker_check_redundant (hay username : List Char)
    (h : username ≠ []) :
    (inclTest ('@' :: username) hay || inclTest username hay) =
      inclTest username hay :=
  incl_at_redundant hay username

/-- C10 witness: the theorem applied to a concrete haystack and username. -/
theorem c10_witness :
    ((jstr "alice") ≠ []) ∧
    (inclTest ('@' :: jstr "alice") (jstr "mail to alice@example.com") ||
      inclTest (jstr "alice") (jstr "mail to alice@example.com")) =
      inclTest (jstr "alice") (jstr "mail to alice@example.com") :=
  ⟨by decide, c10_marker_check_redundant (jstr "mail to alice@example.com")
    (jstr "alice") (by decide)⟩
